import Mathlib

/-!
A shallow embedding of `tethercalc.py` (the Tether & Damage Attribution
Engine) in Lean 4, with theorems checking the natural-language specification
against the embedded code.

Python dictionaries are modelled as insertion-ordered association lists
(`Dict κ α`): lookup returns the first binding, update rewrites the binding in
place, and fresh keys are appended at the end, exactly as CPython dicts
behave.  A dict built by the Python code never holds two bindings for the same
key; theorems that need this fact take it as a `Nodup` hypothesis.
-/

namespace TetherCalc

/-- Insertion-ordered association list standing in for a Python `dict`. -/
abbrev Dict (κ : Type) (α : Type) := List (κ × α)

/-- `d[k]` as a total lookup: the value at the first binding of `k`, if any. -/
def dget {κ α : Type} [DecidableEq κ] (d : Dict κ α) (k : κ) : Option α :=
  match d with
  | [] => none
  | (k', v) :: rest => if k' = k then some v else dget rest k

/-- `k in d` membership test. -/
def dmem {κ α : Type} [DecidableEq κ] (d : Dict κ α) (k : κ) : Bool :=
  match d with
  | [] => false
  | (k', _) :: rest => if k' = k then true else dmem rest k

/-- `d[k] = v`: rewrite the first binding of `k` in place, or append a fresh
binding at the end, as CPython dict assignment does. -/
def dset {κ α : Type} [DecidableEq κ] (d : Dict κ α) (k : κ) (v : α) : Dict κ α :=
  match d with
  | [] => [(k, v)]
  | (k', v') :: rest => if k' = k then (k, v) :: rest else (k', v') :: dset rest k v

/-! ## `get_real_damages` (tethercalc.py lines 313-324)

```python
real_damages = {}
for source in damages.keys():
    if source in tick_damages:
        real_damages[source] = damages[source] + tick_damages[source]
    else:
        real_damages[source] = damages[source]
```

The loop runs over the bindings of `damages` in insertion order; `damages[source]`
is the value of the binding being visited (keys of a Python dict are unique). -/

/-- The loop body of `get_real_damages`: visiting the binding `p` of `damages`,
either `real_damages[source] = damages[source] + tick_damages[source]` or
`real_damages[source] = damages[source]`. -/
def real_damages_step (tick_damages : Dict Nat Int)
    (real_damages : Dict Nat Int) (p : Nat × Int) : Dict Nat Int :=
  match dget tick_damages p.1 with
  | some t => dset real_damages p.1 (p.2 + t)
  | none => dset real_damages p.1 p.2

/-- Embedding of `get_real_damages`. -/
def get_real_damages (damages tick_damages : Dict Nat Int) : Dict Nat Int :=
  damages.foldl (real_damages_step tick_damages) []

/-! ### Lemmas about the dict model -/

theorem dmem_eq_false_of_dget_eq_none {κ α : Type} [DecidableEq κ]
    {d : Dict κ α} {k : κ} (h : dget d k = none) : dmem d k = false := by
  induction d with
  | nil => rfl
  | cons p rest ih =>
    obtain ⟨k', v⟩ := p
    by_cases hk : k' = k
    · simp [dget, hk] at h
    · simp [dget, hk] at h
      simp [dmem, hk, ih h]

theorem dset_of_not_mem {κ α : Type} [DecidableEq κ]
    {d : Dict κ α} {k : κ} (v : α) (h : dmem d k = false) :
    dset d k v = d ++ [(k, v)] := by
  induction d with
  | nil => rfl
  | cons p rest ih =>
    obtain ⟨k', v'⟩ := p
    by_cases hk : k' = k
    · simp [dmem, hk] at h
    · simp [dmem, hk] at h
      simp [dset, hk, ih h]

theorem dget_append_of_not_mem {κ α : Type} [DecidableEq κ]
    {d : Dict κ α} {k : κ} (h : dmem d k = false) (tail : Dict κ α) :
    dget (d ++ tail) k = dget tail k := by
  induction d with
  | nil => rfl
  | cons p rest ih =>
    obtain ⟨k', v'⟩ := p
    by_cases hk : k' = k
    · simp [dmem, hk] at h
    · simp [dmem, hk] at h
      simp [dget, hk, ih h]

/-! ### Claim C1 -/

theorem dmem_append {κ α : Type} [DecidableEq κ]
    (d tail : Dict κ α) (k : κ) :
    dmem (d ++ tail) k = (dmem d k || dmem tail k) := by
  induction d with
  | nil => rfl
  | cons p rest ih =>
    obtain ⟨k', v'⟩ := p
    by_cases hk : k' = k
    · simp [dmem, hk]
    · simp [dmem, hk, ih]

theorem real_damages_foldl_append (tick_damages : Dict Nat Int)
    (damages : Dict Nat Int) (acc : Dict Nat Int)
    (hfresh : ∀ k ∈ damages.map Prod.fst, dmem acc k = false)
    (hnodup : (damages.map Prod.fst).Nodup) :
    damages.foldl (real_damages_step tick_damages) acc =
      acc ++ damages.map (fun p => (p.1, p.2 + ((dget tick_damages p.1).getD 0))) := by
  induction damages generalizing acc with
  | nil => simp
  | cons p rest ih =>
    obtain ⟨k, v⟩ := p
    simp only [List.map_cons, List.nodup_cons] at hnodup
    have hk : dmem acc k = false := hfresh k (by simp)
    have hstep : real_damages_step tick_damages acc (k, v) =
        acc ++ [(k, v + ((dget tick_damages k).getD 0))] := by
      unfold real_damages_step
      cases hgt : dget tick_damages k with
      | none => simp [dset_of_not_mem _ hk, hgt]
      | some t => simp [dset_of_not_mem _ hk, hgt]
    simp only [List.foldl_cons, hstep]
    rw [ih (acc ++ [(k, v + ((dget tick_damages k).getD 0))])]
    · simp
    · intro k' hk'
      have hne : ¬ (k = k') := fun hcontra => hnodup.1 (hcontra ▸ hk')
      rw [dmem_append]
      simp [dmem, hne, hfresh k' (by simp [hk'])]
    · exact hnodup.2

/-- C1 counterexample: an actor present only in the tick map does not appear in
the result of `get_real_damages` — the loop runs over the keys of the direct
map alone, so with `damages = {}` and `tick_damages = {1: 5}` the merge is
empty, while the claim demands an entry `1 ↦ 5`. -/
theorem get_real_damages_drops_tick_only_actor :
    get_real_damages [] [(1, 5)] = [] ∧
      dget (get_real_damages [] [(1, 5)]) 1 = none := by
  constructor <;> rfl

/-- C1 (amended): `get_real_damages` returns exactly the actors of the direct
map, in its iteration order, each mapped to `direct[actor] + tick[actor]` with
a missing tick entry read as 0; actors present only in the tick map are
dropped. -/
theorem get_real_damages_merges_over_direct_keys
    (damages tick_damages : Dict Nat Int)
    (hnodup : (damages.map Prod.fst).Nodup) :
    get_real_damages damages tick_damages =
      damages.map (fun p => (p.1, p.2 + ((dget tick_damages p.1).getD 0))) := by
  unfold get_real_damages
  rw [real_damages_foldl_append tick_damages damages [] (fun k _ => rfl) hnodup]
  simp

/-- C1 amended witness: concrete evaluation, `{1: 5000, 2: 3000}` merged with
`{1: 1000, 3: 7}` gives `{1: 6000, 2: 3000}`. -/
theorem get_real_damages_merges_over_direct_keys_witness :
    (([(1, 5000), (2, 3000)] : Dict Nat Int).map Prod.fst).Nodup ∧
      get_real_damages [(1, 5000), (2, 3000)] [(1, 1000), (3, 7)] =
        [(1, 6000), (2, 3000)] := by
  refine ⟨by decide, ?_⟩
  rw [get_real_damages_merges_over_direct_keys _ _ (by decide)]
  rfl

/-! ## `get_tethers` (tethercalc.py lines 78-119)

The event-processing loop of `get_tethers`: the fetched event list (already
filtered to the Left Eye ability by the API query) is replayed in order.  An
`applybuff` opens a new interval; a `removebuff` looks up
`[tether for tether in tethers if tether['source'] == event['sourceID'] and 'end' not in tether]`
and sets `end` on `tether_set[0]` — the first (oldest) matching element — or,
when no open interval exists, synthesizes one spanning a 20 s lookback. -/

/-- An event of the Left Eye buff stream. -/
structure BuffEvent where
  btype : String
  sourceID : Nat
  targetID : Nat
  timestamp : Nat
deriving DecidableEq, Repr

/-- A tether interval dict `{source, target, start, end?}`; a missing `end`
key is `none`. -/
structure Tether where
  source : Nat
  target : Nat
  start : Nat
  endT : Option Nat
deriving DecidableEq, Repr

/-- The predicate of the `removebuff` list comprehension:
`tether['source'] == event['sourceID'] and 'end' not in tether`. -/
def tether_open_for (src : Nat) (t : Tether) : Bool :=
  decide (t.source = src ∧ t.endT = none)

/-- Mutation of `tether_set[0]`: set `end` on the first open interval of this
source, leaving every other list element untouched. -/
def close_first_open (tethers : List Tether) (src ts : Nat) : List Tether :=
  match tethers with
  | [] => []
  | t :: rest =>
    if tether_open_for src t then { t with endT := some ts } :: rest
    else t :: close_first_open rest src ts

/-- One iteration of the `get_tethers` event loop. -/
def get_tethers_step (start : Nat) (tethers : List Tether) (event : BuffEvent) :
    List Tether :=
  if event.btype = "applybuff" then
    tethers ++ [⟨event.sourceID, event.targetID, event.timestamp, none⟩]
  else if event.btype = "removebuff" then
    if tethers.filter (tether_open_for event.sourceID) ≠ [] then
      close_first_open tethers event.sourceID event.timestamp
    else
      tethers ++ [⟨event.sourceID, event.targetID,
        max (event.timestamp - 20000) start, some event.timestamp⟩]
  else tethers

/-- Embedding of the `get_tethers` loop over the whole fetched event list. -/
def get_tethers (start : Nat) (events : List BuffEvent) : List Tether :=
  events.foldl (get_tethers_step start) []

/-! ### Claim C5 -/

/-- C5 counterexample: with two open intervals for source 1 (applied at 10 and
at 20), a `removebuff` at 30 closes the OLDEST interval (`tether_set[0]`, the
first element of the comprehension), not the most recent one as the claim
states. -/
theorem get_tethers_remove_closes_oldest_counterexample :
    get_tethers 0
        [⟨"applybuff", 1, 2, 10⟩, ⟨"applybuff", 1, 3, 20⟩, ⟨"removebuff", 1, 3, 30⟩] =
      [⟨1, 2, 10, some 30⟩, ⟨1, 3, 20, none⟩] ∧
    get_tethers 0
        [⟨"applybuff", 1, 2, 10⟩, ⟨"applybuff", 1, 3, 20⟩, ⟨"removebuff", 1, 3, 30⟩] ≠
      [⟨1, 2, 10, none⟩, ⟨1, 3, 20, some 30⟩] := by
  constructor
  · rfl
  · decide

/-- C5 (amended): a `removebuff` event whose source has at least one open
interval closes the OLDEST (first-created) such open interval by setting its
`end` to the event timestamp, leaving all other intervals unchanged. -/
theorem get_tethers_step_remove_closes_oldest
    (start : Nat) (tethers : List Tether) (e : BuffEvent)
    (htype : e.btype = "removebuff")
    (hopen : tethers.filter (tether_open_for e.sourceID) ≠ []) :
    ∃ i, ∃ hi : i < tethers.length,
      tether_open_for e.sourceID (tethers.get ⟨i, hi⟩) = true ∧
      (∀ j, ∀ hj : j < tethers.length, j < i →
        tether_open_for e.sourceID (tethers.get ⟨j, hj⟩) = false) ∧
      get_tethers_step start tethers e =
        tethers.set i { tethers.get ⟨i, hi⟩ with endT := some e.timestamp } := by
  have hstep : get_tethers_step start tethers e =
      close_first_open tethers e.sourceID e.timestamp := by
    unfold get_tethers_step
    rw [htype]
    simp [hopen]
  rw [hstep]
  clear hstep htype
  induction tethers with
  | nil => exact absurd rfl hopen
  | cons t rest ih =>
    by_cases h : tether_open_for e.sourceID t = true
    · refine ⟨0, by simp, h, ?_, ?_⟩
      · intro j hj hj0
        exact absurd hj0 (Nat.not_lt_zero j)
      · simp [close_first_open, h]
    · have h' : tether_open_for e.sourceID t = false := by
        cases hb : tether_open_for e.sourceID t
        · rfl
        · exact absurd hb h
      have hrest : rest.filter (tether_open_for e.sourceID) ≠ [] := by
        intro hcontra
        apply hopen
        simp [List.filter, h', hcontra]
      obtain ⟨i, hi, hati, hbefore, heq⟩ := ih hrest
      refine ⟨i + 1, by simpa using Nat.succ_lt_succ hi, hati, ?_, ?_⟩
      · intro j hj hji
        cases j with
        | zero => exact h'
        | succ j' =>
          exact hbefore j' (by simpa using Nat.lt_of_succ_lt_succ hj)
            (Nat.lt_of_succ_lt_succ hji)
      · simp [close_first_open, h', heq]

/-- C5 amended witness: concrete application closing the single open interval
of source 1. -/
theorem get_tethers_step_remove_closes_oldest_witness :
    ∃ i, ∃ hi : i < ([⟨1, 2, 10, none⟩] : List Tether).length,
      tether_open_for 1 (([⟨1, 2, 10, none⟩] : List Tether).get ⟨i, hi⟩) = true ∧
      (∀ j, ∀ hj : j < ([⟨1, 2, 10, none⟩] : List Tether).length, j < i →
        tether_open_for 1 (([⟨1, 2, 10, none⟩] : List Tether).get ⟨j, hj⟩) = false) ∧
      get_tethers_step 0 [⟨1, 2, 10, none⟩] ⟨"removebuff", 1, 5, 30⟩ =
        ([⟨1, 2, 10, none⟩] : List Tether).set i
          { ([⟨1, 2, 10, none⟩] : List Tether).get ⟨i, hi⟩ with endT := some 30 } :=
  get_tethers_step_remove_closes_oldest 0 [⟨1, 2, 10, none⟩]
    ⟨"removebuff", 1, 5, 30⟩ rfl (by decide)

/-! ## `get_tick_damages` (tethercalc.py lines 141-311)

The event loop replays the fetched (already server-side filtered) event
stream.  Each event carries the normalized `sourceID` (the loop's first step
copies `source.id` into a missing `sourceID`, so the embedding takes the
normalized value as given).  Timestamps are milliseconds, modelled as `Nat`. -/

/-- An event of the tick/debuff stream: `{type, timestamp, sourceID, targetID,
ability.guid, amount, supportID}`. -/
structure TickEvent where
  etype : String
  timestamp : Nat
  sourceID : Nat
  targetID : Nat
  guid : Nat
  amount : Nat
  supportID : Nat
deriving DecidableEq, Repr

/-- A wildfire record dict `{start?, end?, damage?, target?}`; a key that was
never written is `none` (the dict starts out empty, so `target` is also an
`Option`, though every event writes it). -/
structure Wildfire where
  start : Option Nat
  endT : Option Nat
  damage : Option Nat
  target : Option Nat
deriving DecidableEq, Repr

/-- `wildfire = {}` before any event for this source. -/
def emptyWildfire : Wildfire := ⟨none, none, none, none⟩

/-- The mutable state of the `get_tick_damages` event loop. -/
structure TickState where
  active_debuffs : List (Nat × Nat)
  tick_damage : Dict Nat Nat
  wildfires : Dict Nat Wildfire
deriving DecidableEq, Repr

/-- `if who in tick_damage: tick_damage[who] += amount else: tick_damage[who] = amount`. -/
def add_damage (tick_damage : Dict Nat Nat) (who amount : Nat) : Dict Nat Nat :=
  match dget tick_damage who with
  | some old => dset tick_damage who (old + amount)
  | none => dset tick_damage who amount

/-- The wildfire-record update of lines 210-221: `start`, `end` and `damage`
are written only when the key is absent; `target` is written unconditionally. -/
def wildfire_update (wf : Wildfire) (e : TickEvent) : Wildfire :=
  let wf :=
    if e.etype = "applydebuff" then
      if wf.start = none then { wf with start := some e.timestamp } else wf
    else if e.etype = "removedebuff" then
      if wf.endT = none then { wf with endT := some (e.timestamp - 750) } else wf
    else if e.etype = "damage" then
      if wf.damage = none then { wf with damage := some e.amount } else wf
    else wf
  { wf with target := some e.targetID }

/-- The event types of the two "debuff applications" branches. -/
def apply_refresh_types : List String :=
  ["applydebuff", "refreshdebuff", "applybuff", "refreshbuff"]

/-- One iteration of the `get_tick_damages` event loop (lines 196-256). -/
def get_tick_damages_step (version endw : Nat) (st : TickState) (e : TickEvent) :
    TickState :=
  let action := (e.sourceID, e.guid)
  if e.guid = 1000861 ∧ version < 20 then
    let wf := (dget st.wildfires e.sourceID).getD emptyWildfire
    { st with wildfires := dset st.wildfires e.sourceID (wildfire_update wf e) }
  else if e.etype ∈ apply_refresh_types ∧ e.timestamp < endw then
    if action ∈ st.active_debuffs then st
    else { st with active_debuffs := st.active_debuffs ++ [action] }
  else if e.etype ∈ apply_refresh_types ∧ e.timestamp > endw then
    if action ∈ st.active_debuffs then
      { st with active_debuffs := st.active_debuffs.erase action }
    else st
  else if e.etype = "damage" then
    if e.guid = 799 ∧ e.timestamp < endw then
      { st with tick_damage := add_damage st.tick_damage e.supportID e.amount }
    else if action ∈ st.active_debuffs then
      { st with tick_damage := add_damage st.tick_damage e.sourceID e.amount }
    else st
  else st

/-- The whole event loop, from the empty initial state. -/
def get_tick_damages_events (version endw : Nat) (events : List TickEvent) :
    TickState :=
  events.foldl (get_tick_damages_step version endw) ⟨[], [], []⟩

/-! ### Claim C2 -/

/-- C2: on every non-legacy-wildfire event, the active `(sourceID, abilityID)`
set is maintained exactly as specified: an apply/refresh event strictly before
`end` inserts the key if absent (a present key changes nothing); an
apply/refresh event strictly after `end` removes the key (a no-op when
absent); a remove (fade) event changes nothing; and a damage event outside the
radiant-shield special path (ability 799 before `end`, which credits the
support actor and is fetched by a separate non-periodic filter clause) credits
its source by `amount` exactly when its key is in the set, leaving the set
itself unchanged. -/
theorem tick_active_set_maintenance
    (version endw : Nat) (st : TickState) (e : TickEvent)
    (hwf : ¬(e.guid = 1000861 ∧ version < 20)) :
    (e.etype ∈ apply_refresh_types → e.timestamp < endw →
      (get_tick_damages_step version endw st e).active_debuffs =
        (if (e.sourceID, e.guid) ∈ st.active_debuffs then st.active_debuffs
         else st.active_debuffs ++ [(e.sourceID, e.guid)]) ∧
      (get_tick_damages_step version endw st e).tick_damage = st.tick_damage) ∧
    (e.etype ∈ apply_refresh_types → e.timestamp > endw →
      (get_tick_damages_step version endw st e).active_debuffs =
        st.active_debuffs.erase (e.sourceID, e.guid) ∧
      (get_tick_damages_step version endw st e).tick_damage = st.tick_damage) ∧
    (e.etype = "removedebuff" ∨ e.etype = "removebuff" →
      get_tick_damages_step version endw st e = st) ∧
    (e.etype = "damage" → ¬(e.guid = 799 ∧ e.timestamp < endw) →
      (get_tick_damages_step version endw st e).active_debuffs =
        st.active_debuffs ∧
      (get_tick_damages_step version endw st e).tick_damage =
        (if (e.sourceID, e.guid) ∈ st.active_debuffs
         then add_damage st.tick_damage e.sourceID e.amount
         else st.tick_damage)) := by
  refine ⟨?_, ?_, ?_, ?_⟩
  · intro htype hts
    unfold get_tick_damages_step
    by_cases hmem : (e.sourceID, e.guid) ∈ st.active_debuffs <;>
      simp [hwf, htype, hts, hmem]
  · intro htype hts
    have hts' : ¬(e.timestamp < endw) := by omega
    unfold get_tick_damages_step
    by_cases hmem : (e.sourceID, e.guid) ∈ st.active_debuffs
    · simp [hwf, htype, hts, hts', hmem]
    · simp [hwf, htype, hts, hts', hmem, List.erase_of_not_mem hmem]
  · intro htype
    have hnotapply : ¬(e.etype ∈ apply_refresh_types) := by
      rcases htype with h | h <;> rw [h] <;> decide
    have hnotdamage : ¬(e.etype = "damage") := by
      rcases htype with h | h <;> rw [h] <;> decide
    unfold get_tick_damages_step
    simp [hwf, hnotapply, hnotdamage]
  · intro htype h799
    have hnotapply : ¬(("damage" : String) ∈ apply_refresh_types) := by decide
    unfold get_tick_damages_step
    by_cases hmem : (e.sourceID, e.guid) ∈ st.active_debuffs <;>
      simp [hwf, hnotapply, htype, h799, hmem]

/-- C2 witness: an `applydebuff` at 500 (strictly before `end` = 1000) for key
`(1, 42)` on the empty state inserts the key and leaves the damage table
unchanged, via the theorem applied at a concrete non-wildfire event. -/
theorem tick_active_set_maintenance_witness :
    (("applydebuff" : String) ∈ apply_refresh_types → 500 < 1000 →
      (get_tick_damages_step 20 1000 ⟨[], [], []⟩ ⟨"applydebuff", 500, 1, 9, 42, 0, 0⟩).active_debuffs =
        (if ((1 : Nat), (42 : Nat)) ∈ ([] : List (Nat × Nat)) then ([] : List (Nat × Nat))
         else [] ++ [(1, 42)]) ∧
      (get_tick_damages_step 20 1000 ⟨[], [], []⟩ ⟨"applydebuff", 500, 1, 9, 42, 0, 0⟩).tick_damage = []) ∧
    (("applydebuff" : String) ∈ apply_refresh_types → 500 > 1000 →
      (get_tick_damages_step 20 1000 ⟨[], [], []⟩ ⟨"applydebuff", 500, 1, 9, 42, 0, 0⟩).active_debuffs =
        ([] : List (Nat × Nat)).erase (1, 42) ∧
      (get_tick_damages_step 20 1000 ⟨[], [], []⟩ ⟨"applydebuff", 500, 1, 9, 42, 0, 0⟩).tick_damage = []) ∧
    (("applydebuff" : String) = "removedebuff" ∨ ("applydebuff" : String) = "removebuff" →
      get_tick_damages_step 20 1000 ⟨[], [], []⟩ ⟨"applydebuff", 500, 1, 9, 42, 0, 0⟩ = ⟨[], [], []⟩) ∧
    (("applydebuff" : String) = "damage" → ¬((42 : Nat) = 799 ∧ 500 < 1000) →
      (get_tick_damages_step 20 1000 ⟨[], [], []⟩ ⟨"applydebuff", 500, 1, 9, 42, 0, 0⟩).active_debuffs = [] ∧
      (get_tick_damages_step 20 1000 ⟨[], [], []⟩ ⟨"applydebuff", 500, 1, 9, 42, 0, 0⟩).tick_damage =
        (if ((1 : Nat), (42 : Nat)) ∈ ([] : List (Nat × Nat))
         then add_damage [] 1 0
         else [])) :=
  tick_active_set_maintenance 20 1000 ⟨[], [], []⟩
    ⟨"applydebuff", 500, 1, 9, 42, 0, 0⟩ (by decide)

/-! ### Claim C9 -/

theorem dget_dset_self {κ α : Type} [DecidableEq κ] (d : Dict κ α) (k : κ) (v : α) :
    dget (dset d k v) k = some v := by
  induction d with
  | nil => simp [dset, dget]
  | cons p rest ih =>
    obtain ⟨k', v'⟩ := p
    by_cases h : k' = k <;> simp [dset, dget, h, ih]

/-- C9 counterexample: in a legacy (version < 20) log, two wildfire events for
source 1 with different targets (an `applydebuff` on target 5, then a `damage`
on target 6) leave the record's `target` at the LAST event's target 6 — the
assignment `wildfire['target'] = event['targetID']` is unconditional — while
the claim's first-write-wins rule demands target 5. -/
theorem wildfire_target_not_first_write_counterexample :
    dget (get_tick_damages_events 19 100000
        [⟨"applydebuff", 100, 1, 5, 1000861, 0, 0⟩,
         ⟨"damage", 200, 1, 6, 1000861, 50, 0⟩]).wildfires 1 =
      some ⟨some 100, none, some 50, some 6⟩ ∧
    dget (get_tick_damages_events 19 100000
        [⟨"applydebuff", 100, 1, 5, 1000861, 0, 0⟩,
         ⟨"damage", 200, 1, 6, 1000861, 50, 0⟩]).wildfires 1 ≠
      some ⟨some 100, none, some 50, some 5⟩ := by
  constructor
  · rfl
  · decide

/-- C9 (amended): for every legacy wildfire event hitting an existing record,
the `start`, `end` and `damage` fields are first-write-wins (a field already
set is never overwritten), while `target` is written unconditionally by every
event (last-write-wins). -/
theorem wildfire_record_field_writes
    (version endw : Nat) (st : TickState) (e : TickEvent) (wf : Wildfire)
    (hwf : e.guid = 1000861 ∧ version < 20)
    (hrec : dget st.wildfires e.sourceID = some wf) :
    ∃ wf',
      dget (get_tick_damages_step version endw st e).wildfires e.sourceID = some wf' ∧
      (∀ s, wf.start = some s → wf'.start = some s) ∧
      (∀ s, wf.endT = some s → wf'.endT = some s) ∧
      (∀ s, wf.damage = some s → wf'.damage = some s) ∧
      wf'.target = some e.targetID := by
  refine ⟨wildfire_update wf e, ?_, ?_, ?_, ?_, ?_⟩
  · unfold get_tick_damages_step
    simp [hwf, hrec, dget_dset_self]
  · intro s hs
    unfold wildfire_update
    by_cases h1 : e.etype = "applydebuff" <;>
      by_cases h2 : e.etype = "removedebuff" <;>
        by_cases h3 : e.etype = "damage" <;>
          simp [h1, h2, h3, hs] <;> split <;> simp [hs]
  · intro s hs
    unfold wildfire_update
    by_cases h1 : e.etype = "applydebuff" <;>
      by_cases h2 : e.etype = "removedebuff" <;>
        by_cases h3 : e.etype = "damage" <;>
          simp [h1, h2, h3, hs] <;> split <;> simp [hs]
  · intro s hs
    unfold wildfire_update
    by_cases h1 : e.etype = "applydebuff" <;>
      by_cases h2 : e.etype = "removedebuff" <;>
        by_cases h3 : e.etype = "damage" <;>
          simp [h1, h2, h3, hs] <;> split <;> simp [hs]
  · unfold wildfire_update
    by_cases h1 : e.etype = "applydebuff" <;>
      by_cases h2 : e.etype = "removedebuff" <;>
        by_cases h3 : e.etype = "damage" <;>
          simp [h1, h2, h3]

/-- C9 amended witness: a legacy wildfire `damage` event on a record whose
`start` and `damage` are already set preserves them and rewrites `target`. -/
theorem wildfire_record_field_writes_witness :
    ∃ wf',
      dget (get_tick_damages_step 19 100000
        ⟨[], [], [(1, ⟨some 100, none, some 50, some 5⟩)]⟩
        ⟨"damage", 300, 1, 8, 1000861, 70, 0⟩).wildfires 1 = some wf' ∧
      (∀ s, (some 100 : Option Nat) = some s → wf'.start = some s) ∧
      (∀ s, (none : Option Nat) = some s → wf'.endT = some s) ∧
      (∀ s, (some 50 : Option Nat) = some s → wf'.damage = some s) ∧
      wf'.target = some 8 :=
  wildfire_record_field_writes 19 100000
    ⟨[], [], [(1, ⟨some 100, none, some 50, some 5⟩)]⟩
    ⟨"damage", 300, 1, 8, 1000861, 70, 0⟩
    ⟨some 100, none, some 50, some 5⟩ (by decide) rfl

/-! ### Claim C3 — wildfire reconciliation (lines 258-309)

The reconciliation loop runs once per wildfire record.  The secondary
damage-table query is modelled as an oracle `query : WfQuery → List
DamageEntry`; the function also returns the query it issued (if any) so
theorems can talk about its parameters.  `int(0.25 * total)` is modelled as
`total / 4`: 0.25 is an exact binary double, `total` is a nonnegative integer,
and `int` truncates, so the float expression equals the exact quotient for all
representable totals. -/

/-- The parameters of the secondary damage-table query: time bounds and the
filter `source.type!="pet" and source.id=... and target.id=...`. -/
structure WfQuery where
  qstart : Nat
  qend : Nat
  exclude_pet_sources : Bool
  source_id : Nat
  target_id : Nat
deriving DecidableEq, Repr

/-- One entry of a damage-table response: `{id, total}`. -/
structure DamageEntry where
  id : Nat
  total : Nat
deriving DecidableEq, Repr

/-- `'start' in wildfire and 'end' in wildfire and wildfire['start'] > start
and wildfire['end'] < end`. -/
def wildfire_fully_inside (start endw : Nat) (wf : Wildfire) : Bool :=
  match wf.start, wf.endT with
  | some s, some e => decide (s > start ∧ e < endw)
  | _, _ => false

/-- `'start' in wildfire and wildfire['start'] > end`. -/
def wildfire_started_after (endw : Nat) (wf : Wildfire) : Bool :=
  match wf.start with
  | some s => decide (s > endw)
  | none => false

/-- One iteration of the wildfire reconciliation loop (lines 261-309),
returning the updated damage table together with the secondary query issued,
if any. -/
def wildfire_reconcile_one (query : WfQuery → List DamageEntry)
    (start endw : Nat) (tick_damage : Dict Nat Nat) (source : Nat)
    (wf : Wildfire) : Dict Nat Nat × Option WfQuery :=
  let wf := if wf.damage = none then { wf with damage := some 0 } else wf
  if wildfire_fully_inside start endw wf then
    (add_damage tick_damage source (wf.damage.getD 0), none)
  else if wildfire_started_after endw wf then
    (tick_damage, none)
  else
    match wf.endT with
    | none => (tick_damage, none)
    | some e0 =>
      let s := wf.start.getD start
      let e := if e0 > endw then endw else e0
      let q : WfQuery := ⟨s, e, true, source, wf.target.getD 0⟩
      match query q with
      | [] => (tick_damage, some q)
      | entry :: _ => (add_damage tick_damage source (entry.total / 4), some q)

/-- C3 counterexample: a legacy record with a recorded `start` inside the
window but NO recorded `end` is neither fully inside `(start, end)` nor
started after `end`, yet the reconciliation pass issues no secondary query and
contributes nothing — the partial-overlap branch is guarded by `'end' in
wildfire`, so it never clamps the unset `end` boundary — even though the
damage table (the oracle, here constantly `[{id 7, total 1000}]`) would have
returned a nonzero total. -/
theorem wildfire_reconcile_skips_record_without_end_counterexample :
    wildfire_fully_inside 0 1000 ⟨some 500, none, none, some 7⟩ = false ∧
    wildfire_started_after 1000 ⟨some 500, none, none, some 7⟩ = false ∧
    wildfire_reconcile_one (fun _ => [⟨7, 1000⟩]) 0 1000 [] 1
        ⟨some 500, none, none, some 7⟩ = ([], none) := by
  refine ⟨rfl, rfl, rfl⟩

/-- C3 (amended): for every legacy record that additionally has its `end`
boundary recorded and is neither fully inside the window nor started after
`end`, the pass clamps the unset `start` to the window start and an
out-of-window `end` down to the window end, issues exactly one secondary
damage-table query over the clamped interval restricted to that source against
that target excluding pet sources, contributes zero when the query returns no
entries, and otherwise adds `⌊0.25 * total⌋` of the first returned entry to
the source's total; the pass is a total function, so it never raises. -/
theorem wildfire_reconcile_partial_overlap
    (query : WfQuery → List DamageEntry) (start endw : Nat)
    (tick_damage : Dict Nat Nat) (source : Nat) (wf : Wildfire) (e0 : Nat)
    (hfull : wildfire_fully_inside start endw
      (if wf.damage = none then { wf with damage := some 0 } else wf) = false)
    (hafter : wildfire_started_after endw
      (if wf.damage = none then { wf with damage := some 0 } else wf) = false)
    (hend : wf.endT = some e0) :
    ∃ q : WfQuery,
      (wildfire_reconcile_one query start endw tick_damage source wf).2 = some q ∧
      q.qstart = wf.start.getD start ∧
      q.qend = (if e0 > endw then endw else e0) ∧
      q.exclude_pet_sources = true ∧
      q.source_id = source ∧
      q.target_id = wf.target.getD 0 ∧
      (query q = [] →
        (wildfire_reconcile_one query start endw tick_damage source wf).1 =
          tick_damage) ∧
      (∀ entry rest, query q = entry :: rest →
        (wildfire_reconcile_one query start endw tick_damage source wf).1 =
          add_damage tick_damage source (entry.total / 4)) := by
  have hconst : ∀ b : Wildfire, b = (if wf.damage = none then { wf with damage := some 0 } else wf) →
      b.endT = some e0 ∧ b.start = wf.start ∧ b.target = wf.target := by
    intro b hb
    by_cases hd : wf.damage = none <;> simp [hd] at hb <;> simp [hb, hend]
  obtain ⟨hbe, hbs, hbt⟩ := hconst _ rfl
  refine ⟨⟨wf.start.getD start, if e0 > endw then endw else e0, true, source,
    wf.target.getD 0⟩, ?_, rfl, rfl, rfl, rfl, rfl, ?_, ?_⟩
  · simp only [wildfire_reconcile_one, hfull, hafter, Bool.false_eq_true,
      if_false, hbe, hbs, hbt]
    split <;> rfl
  · intro hq
    simp only [wildfire_reconcile_one, hfull, hafter, Bool.false_eq_true,
      if_false, hbe, hbs, hbt, hq]
  · intro entry rest hq
    simp only [wildfire_reconcile_one, hfull, hafter, Bool.false_eq_true,
      if_false, hbe, hbs, hbt, hq]

/-- C3 amended witness: a record with no `start`, `end` recorded at 1200 (past
the window end 1000), damage 77, target 7, inside window `[100, 1000]`: the
query is clamped to `[100, 1000]`, pet-excluding, for source 1 against target
7, and with the oracle returning one entry of total 2000 the source is
credited `2000 / 4 = 500`. -/
theorem wildfire_reconcile_partial_overlap_witness :
    ∃ q : WfQuery,
      (wildfire_reconcile_one (fun _ => [⟨7, 2000⟩]) 100 1000 [] 1
          ⟨none, some 1200, some 77, some 7⟩).2 = some q ∧
      q.qstart = 100 ∧
      q.qend = 1000 ∧
      q.exclude_pet_sources = true ∧
      q.source_id = 1 ∧
      q.target_id = 7 ∧
      (([(⟨7, 2000⟩ : DamageEntry)]) = [] →
        (wildfire_reconcile_one (fun _ => [⟨7, 2000⟩]) 100 1000 [] 1
            ⟨none, some 1200, some 77, some 7⟩).1 = []) ∧
      (∀ entry rest, ([(⟨7, 2000⟩ : DamageEntry)]) = entry :: rest →
        (wildfire_reconcile_one (fun _ => [⟨7, 2000⟩]) 100 1000 [] 1
            ⟨none, some 1200, some 77, some 7⟩).1 =
          add_damage [] 1 (entry.total / 4)) :=
  wildfire_reconcile_partial_overlap (fun _ => [⟨7, 2000⟩]) 100 1000 [] 1
    ⟨none, some 1200, some 77, some 7⟩ 1200 (by decide) (by decide) rfl

/-! ## `tethercalc` (tethercalc.py lines 368-448) -/

/-- A friendly actor `{name, type}` from the report's `friendlies` array;
`friends` is modelled as a total function from actor id, standing for the
`friends[...]` dict lookups of the ranking loop. -/
structure Friend where
  name : String
  ftype : String
deriving DecidableEq, Repr

/-! ### Claim C6 — self-buff correction (lines 421-423)

```python
if tether['target'] in real_damages:
    real_damages[tether['target']] = int(real_damages[tether['target']] / 1.05)
```

`int(x / 1.05)` divides by the float 1.05 and truncates toward zero; it is
modelled exactly as `Int.tdiv (100 * x) 105` (truncating division by the
rational 21/20 — for the damage magnitudes the provider returns, the double
rounding of `x / 1.05` never crosses an integer boundary, and for nonnegative
`x` truncation towards zero coincides with floor). -/

/-- Embedding of the self-buff correction. -/
def self_buff_correction (real_damages : Dict Nat Int) (target : Nat) :
    Dict Nat Int :=
  if dmem real_damages target then
    dset real_damages target
      (Int.tdiv (100 * ((dget real_damages target).getD 0)) 105)
  else real_damages

theorem mem_dset {κ α : Type} [DecidableEq κ] {d : Dict κ α} {k : κ} {v : α}
    {p : κ × α} (h : p ∈ dset d k v) : p = (k, v) ∨ p ∈ d := by
  induction d with
  | nil => simpa [dset] using h
  | cons q rest ih =>
    obtain ⟨k', v'⟩ := q
    by_cases hk : k' = k
    · simp only [dset, if_pos hk, List.mem_cons] at h
      rcases h with h | h
      · exact Or.inl h
      · exact Or.inr (List.mem_cons_of_mem _ h)
    · simp only [dset, if_neg hk, List.mem_cons] at h
      rcases h with h | h
      · exact Or.inr (h ▸ List.mem_cons_self _ _)
      · rcases ih h with h' | h'
        · exact Or.inl h'
        · exact Or.inr (List.mem_cons_of_mem _ h')

theorem dget_mem {κ α : Type} [DecidableEq κ] {d : Dict κ α} {k : κ} {v : α}
    (h : dget d k = some v) : (k, v) ∈ d := by
  induction d with
  | nil => simp [dget] at h
  | cons q rest ih =>
    obtain ⟨k', v'⟩ := q
    by_cases hk : k' = k
    · simp only [dget, if_pos hk] at h
      simp [hk, ← Option.some_inj.mp h]
    · simp only [dget, if_neg hk] at h
      exact List.mem_cons_of_mem _ (ih h)

/-- C6: on a merged damage map whose values are all nonnegative, the
presence-guarded self-buff correction (divide the tether target's entry by
1.05 and truncate) yields a map whose values are all nonnegative; the
operation is a total function of the map, so it never raises. -/
theorem self_buff_correction_nonneg
    (real_damages : Dict Nat Int) (target : Nat)
    (hpos : ∀ p ∈ real_damages, 0 ≤ p.2) :
    ∀ p ∈ self_buff_correction real_damages target, 0 ≤ p.2 := by
  intro p hp
  unfold self_buff_correction at hp
  by_cases hm : dmem real_damages target = true
  · rw [if_pos hm] at hp
    rcases mem_dset hp with h | h
    · subst h
      refine Int.tdiv_nonneg ?_ (by norm_num)
      cases hv : dget real_damages target with
      | none => simp [hv]
      | some v =>
        have := hpos _ (dget_mem hv)
        simp only [hv, Option.getD_some]
        positivity
    · exact hpos _ h
  · rw [if_neg hm] at hp
    exact hpos _ hp

/-- C6 witness: the claim's own example — a target entry of 6000 becomes
`int(6000 / 1.05) = 5714`, and all values stay nonnegative. -/
theorem self_buff_correction_nonneg_witness :
    (∀ p ∈ ([(1, 6000)] : Dict Nat Int), 0 ≤ p.2) ∧
    (∀ p ∈ self_buff_correction [(1, 6000)] 1, 0 ≤ p.2) ∧
    self_buff_correction [(1, 6000)] 1 = [(1, 5714)] :=
  ⟨by decide, self_buff_correction_nonneg [(1, 6000)] 1 (by decide), by decide⟩

/-! ### Claim C4 — "correct" target selection (lines 431-438)

```python
for top in damage_list:
    if top[0] != tether['source'] and friends[top[0]]['type'] != 'LimitBreak':
        correct = friends[top[0]]['name']
        break
if not correct:
    correct = 'Nobody?'
```

The local `correct` is never initialised before the loop.  On the first
tether, if the loop finds no valid entry, the `if not correct:` line reads an
unbound local and raises `UnboundLocalError`; on later tethers `correct`
still holds the previous iteration's (truthy) name, so the sentinel
assignment is skipped and the stale name is reused.  `prev` below is the
value `correct` holds from the previous loop iteration (`none` on the first
iteration); the `.error ()` result is the `UnboundLocalError`. -/

/-- The ranking loop: first entry that is neither the caster nor a
`LimitBreak` pseudo-actor. -/
def find_top_candidate (friends : Nat → Friend) (source : Nat)
    (damage_list : List (Nat × Int)) : Option String :=
  (damage_list.find?
      (fun top => decide (top.1 ≠ source ∧ (friends top.1).ftype ≠ "LimitBreak"))).map
    (fun top => (friends top.1).name)

/-- Embedding of the `correct`-selection of one `tethercalc` loop iteration,
including the Python local-variable semantics of `correct`. -/
def select_correct (friends : Nat → Friend) (source : Nat)
    (damage_list : List (Nat × Int)) (prev : Option String) :
    Except Unit String :=
  let correct :=
    match find_top_candidate friends source damage_list with
    | some name => some name
    | none => prev
  match correct with
  | none => Except.error ()
  | some c => Except.ok (if c = "" then "Nobody?" else c)

/-- C4: with no valid non-caster/non-LimitBreak candidate, the first tether's
selection raises `UnboundLocalError` (`.error ()`) instead of returning the
`'Nobody?'` sentinel, and a later tether silently reuses the previous tether's
stale name — the sentinel branch `if not correct:` is unreachable as intended
because `correct` is never initialised to a falsy value. -/
theorem select_correct_unbound_on_no_candidate :
    select_correct (fun _ => ⟨"Alice", "LimitBreak"⟩) 1 [(2, 100)] none =
      Except.error () ∧
    select_correct (fun _ => ⟨"Alice", "LimitBreak"⟩) 1 [(2, 100)] none ≠
      Except.ok "Nobody?" ∧
    select_correct (fun _ => ⟨"Alice", "LimitBreak"⟩) 1 [(2, 100)] (some "Bob") =
      Except.ok "Bob" := by
  refine ⟨rfl, by simp [select_correct, find_top_candidate], rfl⟩

/-! ### Claim C7 — fight resolution (lines 377-380)

```python
fight = [fight for fight in report_data['fights'] if fight['id'] == fight_id][0]
if not fight:
    raise TetherCalcException("Fight ID not found in report")
```

Indexing `[0]` on the empty comprehension raises `IndexError` before the
guard is reached; and when a fight IS found it is a nonempty dict, hence
truthy, so the `TetherCalcException` branch never fires at all. -/

/-- A fight entry of the report's fight list. -/
structure Fight where
  id : Nat
  start_time : Nat
  end_time : Nat
deriving DecidableEq, Repr

/-- The error outcomes fight resolution can produce. -/
inductive TCError where
  | indexError
  | tetherCalcException (msg : String)
deriving DecidableEq, Repr

/-- Embedding of the fight lookup: filter the fight list by id, take element
0 (raising `IndexError` when the filtered list is empty), then test the
truthiness of the found (nonempty, hence truthy) dict. -/
def resolve_fight (fights : List Fight) (fight_id : Nat) : Except TCError Fight :=
  match fights.filter (fun f => decide (f.id = fight_id)) with
  | [] => Except.error TCError.indexError
  | f :: _ => Except.ok f

/-- C7: a report whose fight list has no entry with the requested id makes
fight resolution fail with a raw `IndexError` from `[...][0]`, not with the
documented `TetherCalcException("Fight ID not found in report")` — that raise
is unreachable. -/
theorem resolve_fight_missing_id_raises_index_error :
    resolve_fight [⟨1, 0, 1000⟩] 2 = Except.error TCError.indexError ∧
    resolve_fight [⟨1, 0, 1000⟩] 2 ≠
      Except.error (TCError.tetherCalcException "Fight ID not found in report") := by
  refine ⟨rfl, by simp [resolve_fight]⟩

/-! ### Claim C8 — `fflogs_fetch` error handling (lines 27-40)

```python
if response.status_code != 200:
    if 'error' in response_dict:
        raise TetherCalcException('FFLogs error: ' + response_dict['error'])
    else:
        raise TetherCalcException('Unexpected FFLogs response code: ' + response.status_code)
```

In the `else` branch, `'...' + response.status_code` concatenates a `str`
with an `int`, which raises `TypeError` before the `TetherCalcException` is
ever constructed. -/

/-- The parsed response body; `err` is the optional `'error'` key. -/
structure RespBody where
  err : Option String
deriving DecidableEq, Repr

/-- Outcomes of the response handling in `fflogs_fetch`: the deliberately
raised `TetherCalcException`s, or a `TypeError` escaping from building an
error message. -/
inductive FetchError where
  | tetherCalcException (msg : String)
  | typeError
deriving DecidableEq, Repr

/-- Embedding of the response handling of `fflogs_fetch`: `parsed = none`
models a body that fails JSON parsing. -/
def fflogs_fetch_check (parsed : Option RespBody) (status_code : Nat) :
    Except FetchError RespBody :=
  match parsed with
  | none => Except.error (FetchError.tetherCalcException "Could not parse response")
  | some body =>
    if status_code ≠ 200 then
      match body.err with
      | some e => Except.error (FetchError.tetherCalcException ("FFLogs error: " ++ e))
      | none => Except.error FetchError.typeError
    else Except.ok body

/-- C8: a parseable response with non-success status 404 and no `'error'` key
makes `fflogs_fetch` raise `TypeError` (string-plus-integer concatenation in
the message expression), not the documented
`TetherCalcException('Unexpected FFLogs response code: ...')`. -/
theorem fflogs_fetch_unexpected_status_raises_type_error :
    fflogs_fetch_check (some ⟨none⟩) 404 = Except.error FetchError.typeError ∧
    fflogs_fetch_check (some ⟨none⟩) 404 ≠
      Except.error (FetchError.tetherCalcException
        "Unexpected FFLogs response code: 404") := by
  refine ⟨rfl, by simp [fflogs_fetch_check]⟩

/-! ### Claim C10 — statelessness of `fflogs_api` (lines 17-24, 42-76)

`def fflogs_api(call, report, options={})` creates the default dict ONCE, at
function definition time; every invocation that omits `options` operates on
that same shared dict.  `fflogs_fetch` writes `api_key` and `translate` into
it, and the pagination loop writes `start` (the continuation timestamp) into
it, so the keys survive into the next omitted-`options` invocation. -/

/-- A value stored in an options dict. -/
inductive OptVal where
  | str (s : String)
  | nat (n : Nat)
  | bool (b : Bool)
deriving DecidableEq, Repr

/-- `options['api_key'] = os.environ['FFLOGS_API_KEY']; options['translate'] = True`
performed by `fflogs_fetch` on the dict it is handed, before each request. -/
def fflogs_fetch_mutate (api_key : String) (options : Dict String OptVal) :
    Dict String OptVal :=
  dset (dset options "api_key" (OptVal.str api_key)) "translate" (OptVal.bool true)

/-- One provider response page; only the continuation token matters for the
state claim.  The n-th element answers the n-th request of the call. -/
structure PageResponse where
  nextPage : Option Nat
deriving DecidableEq, Repr

/-- The pagination loop of `fflogs_api` (lines 57-73) as it acts on the
options dict: while the current response carries `nextPageTimestamp`, write
`options['start']` and fetch again (which re-runs the `fflogs_fetch`
mutations). -/
def fflogs_api_paginate (api_key : String) (options : Dict String OptVal) :
    List PageResponse → Dict String OptVal
  | [] => options
  | page :: rest =>
    match page.nextPage with
    | none => options
    | some ts =>
      fflogs_api_paginate api_key
        (fflogs_fetch_mutate api_key (dset options "start" (OptVal.nat ts))) rest

/-- The full effect of one `fflogs_api('events/summary', ...)` call on the
options dict it operates on: the initial `fflogs_fetch` mutation, then the
pagination loop. -/
def fflogs_api_options_effect (api_key : String) (options : Dict String OptVal)
    (pages : List PageResponse) : Dict String OptVal :=
  fflogs_api_paginate api_key (fflogs_fetch_mutate api_key options) pages

/-- The module-level state of `tethercalc.py`: the single shared default
`options={}` dict of `fflogs_api`. -/
structure ModuleState where
  default_options : Dict String OptVal
deriving DecidableEq, Repr

/-- The default dict as created at function definition time: empty. -/
def initial_module_state : ModuleState := ⟨[]⟩

/-- One `fflogs_api` event-stream invocation, seen through its effect on the
module state: with `explicit = some opts` the caller passed its own dict and
the default dict is untouched; with `explicit = none` the caller omitted
`options`, so the body reads and mutates the shared default dict. -/
def fflogs_api_invoke (api_key : String) (st : ModuleState)
    (explicit : Option (Dict String OptVal)) (pages : List PageResponse) :
    ModuleState :=
  match explicit with
  | some _ => st
  | none => ⟨fflogs_api_options_effect api_key st.default_options pages⟩

/-- C10: `fflogs_api` is NOT stateless across invocations that omit
`options`: after one event-stream call (starting from the pristine module
state) whose first response paginates with `nextPageTimestamp = 5000`, the
shared default dict retains `api_key`, `translate` and — behaviourally
decisive — `start = 5000`, all observable by the next omitted-`options`
invocation, whose first request would therefore begin at 5000. -/
theorem fflogs_api_default_options_leak :
    (fflogs_api_invoke "k" initial_module_state none
        [⟨some 5000⟩, ⟨none⟩]).default_options =
      [("api_key", OptVal.str "k"), ("translate", OptVal.bool true),
       ("start", OptVal.nat 5000)] ∧
    dget (fflogs_api_invoke "k" initial_module_state none
        [⟨some 5000⟩, ⟨none⟩]).default_options "start" = some (OptVal.nat 5000) ∧
    fflogs_api_invoke "k" initial_module_state none [⟨some 5000⟩, ⟨none⟩] ≠
      initial_module_state := by
  refine ⟨rfl, rfl, by decide⟩

end TetherCalc
